import Mathlib

/-
  Verification of the word-resolution pipeline of the Local-Translator
  repository: word normalization (`WordMatcher._clean_word`), the four-tier
  matching cascade (`WordMatcher.search_in_csv` and its helpers), the
  fallback dictionary (`Config.get_fallback_translation`), the remote
  translation client (`TranslationService.translate_to_swahili`) with its
  retry/classification loop and cache, input validation
  (`TextProcessor.validate_input`) and the resolver (`translate_word` in
  `main.py`).

  Strings are modelled as Lean `String`s (lists of characters); the pandas
  dataframe is modelled as an ordered list of rows, each carrying the
  source word and an association list from column name to optional cell
  (a missing cell models NaN).  Randomized sleeps and logging are dropped:
  they do not affect any value computed here.  The remote translator is an
  oracle `Nat -> RemoteOutcome` giving the outcome of each attempt, and the
  functions additionally return the number of remote attempts performed so
  that "no network attempt" claims are expressible.
-/

namespace LocalTranslator

/-! ## Python string primitives -/

/-- The whitespace characters recognised by Python's `str.strip`/`str.split`
and the regex class used here (ASCII fragment). -/
def isPySpace (c : Char) : Bool :=
  c = ' ' || c = '\t' || c = '\n' || c = '\r' || c = '\x0b' || c = '\x0c'

/-- `str.lower` on a character list (ASCII semantics). -/
def pyLowerL (l : List Char) : List Char := l.map Char.toLower

/-- `str.strip` on a character list: drop leading and trailing whitespace. -/
def pyStripL (l : List Char) : List Char :=
  ((l.dropWhile isPySpace).reverse.dropWhile isPySpace).reverse

/-- Helper for `str.split()`: accumulate the current token (reversed). -/
def pySplitAux : List Char → List Char → List (List Char)
  | [], acc => if acc = [] then [] else [acc.reverse]
  | c :: cs, acc =>
    if isPySpace c then
      if acc = [] then pySplitAux cs []
      else acc.reverse :: pySplitAux cs []
    else pySplitAux cs (c :: acc)

/-- `str.split()` with no argument: split on whitespace runs, no empty
tokens. -/
def pySplitL (l : List Char) : List (List Char) := pySplitAux l []

/-- `' '.join(tokens)`. -/
def joinSpace : List (List Char) → List Char
  | [] => []
  | t :: ts =>
    match ts with
    | [] => t
    | _ :: _ => t ++ ' ' :: joinSpace ts

/-- `re.sub(r'\s+', ' ', s)`: replace every whitespace run by one space. -/
def replaceWsAux : List Char → Bool → List Char
  | [], _ => []
  | c :: cs, inRun =>
    if isPySpace c then
      if inRun then replaceWsAux cs true else ' ' :: replaceWsAux cs true
    else c :: replaceWsAux cs false

def replaceWsL (l : List Char) : List Char := replaceWsAux l false

/-- A character kept by `re.sub(r'[^\w\s\'-]', '', ...)`: word characters
(letters, digits, underscore), whitespace, apostrophe and hyphen. -/
def keepChar (c : Char) : Bool :=
  c.isAlpha || c.isDigit || c = '_' || isPySpace c || c = '\'' || c = '-'

/-- String wrapper for `str.lower`. -/
def pyLowerS (s : String) : String := ⟨pyLowerL s.data⟩

/-- String wrapper for `str.strip`. -/
def pyStripS (s : String) : String := ⟨pyStripL s.data⟩

/-- `needle` matches at the head of `hay`. -/
def leadMatch : List Char → List Char → Bool
  | [], _ => true
  | _ :: _, [] => false
  | a :: as, b :: bs => a = b && leadMatch as bs

/-- `needle` occurs somewhere in `hay` (Python's `needle in hay`). -/
def occursIn (needle : List Char) : List Char → Bool
  | [] => leadMatch needle []
  | c :: cs => leadMatch needle (c :: cs) || occursIn needle cs

/-- Python `sub in s` on strings. -/
def containsSub (s sub : String) : Bool := occursIn sub.data s.data

/-! ## `WordMatcher._clean_word` -/

/-- `WordMatcher._clean_word` on a character list:
`' '.join(word.strip().lower().split())` followed by
`re.sub(r'[^\w\s\'-]', '', cleaned)`. -/
def cleanWordL (l : List Char) : List Char :=
  (joinSpace (pySplitL (pyLowerL (pyStripL l)))).filter keepChar

/-- `WordMatcher._clean_word`. -/
def cleanWord (s : String) : String := ⟨cleanWordL s.data⟩

/-! ## The lookup table (cleaned dataframe) -/

/-- One dataframe row: the `english` source word plus the cells of the
language columns (`none` models a NaN cell). -/
structure Row where
  english : String
  cells : List (String × Option String)
deriving DecidableEq, Repr

/-- Cell access `row[lang]`. -/
def Row.cell (r : Row) (lang : String) : Option String :=
  match r.cells.find? (fun p => p.1 == lang) with
  | some p => p.2
  | none => none

/-- The dataframe: column names and rows in load order. -/
structure Table where
  cols : List String
  rows : List Row
deriving Repr

/-! ## `WordMatcher._get_best_translation` and the match tiers -/

/-- The row passes the filter
`matches[lang].notna() & (matches[lang].str.strip() != '')`. -/
def nonBlankCell (r : Row) (lang : String) : Bool :=
  match r.cell lang with
  | some v => !(pyStripS v == "")
  | none => false

/-- `WordMatcher._get_best_translation`: keep rows with a present,
non-blank cell for the target language, take the first, trim its cell. -/
def getBestTranslation (ms : List Row) (lang : String) : Option String :=
  match ms.filter (fun r => nonBlankCell r lang) with
  | [] => none
  | r :: _ =>
    let t := pyStripS ((r.cell lang).getD "")
    if t = "" then none else some t

/-- `WordMatcher._exact_match`: rows with
`english.lower().strip() == word`. -/
def exactMatch (word lang : String) (df : Table) : Option String :=
  getBestTranslation
    (df.rows.filter (fun r => pyStripS (pyLowerS r.english) == word)) lang

/-- `WordMatcher._case_insensitive_match`: rows with
`english.lower().strip().replace(r'\s+', ' ') == word`. -/
def caseInsensitiveMatch (word lang : String) (df : Table) : Option String :=
  getBestTranslation
    (df.rows.filter
      (fun r => String.mk (replaceWsL (pyStripL (pyLowerL r.english.data))) == word))
    lang

/-- `pandas.concat(...).drop_duplicates()`: keep the first occurrence of
each row value. -/
def dedupRows (seen : List Row) : List Row → List Row
  | [] => []
  | r :: rs =>
    if r ∈ seen then dedupRows seen rs else r :: dedupRows (r :: seen) rs

/-- Stable insertion of a row into a list sorted by source-word length. -/
def insertByLen (r : Row) : List Row → List Row
  | [] => [r]
  | x :: xs =>
    if x.english.length ≤ r.english.length then x :: insertByLen r xs
    else r :: x :: xs

/-- `sort_values('english', key=len)`, ascending, ties keeping load order. -/
def sortByLen : List Row → List Row
  | [] => []
  | r :: rs => insertByLen r (sortByLen rs)

/-- `WordMatcher._partial_match`.  First filter:
`english.str.lower().str.contains(word, regex=False)`; second filter:
`english.str.lower().apply(lambda x: word in x if x else False)`.
(Note both source lines test whether `word` occurs in the lowered entry;
the comment in the source announces the reversed direction for the second
line, but the code does not implement it.)  The union is deduplicated,
sorted ascending by source-word length, and fed to
`_get_best_translation`. -/
def partMatch (word lang : String) (df : Table) : Option String :=
  let containsM := df.rows.filter (fun r => containsSub (pyLowerS r.english) word)
  let containedM := df.rows.filter
    (fun r => if pyLowerS r.english = "" then false
              else containsSub (pyLowerS r.english) word)
  let allM := dedupRows [] (containsM ++ containedM)
  if allM = [] then none
  else getBestTranslation (sortByLen allM) lang

/-! ## `WordMatcher._fuzzy_match` -/

/-- `set(s.split())`: the whitespace-token set of a string, as a
duplicate-free list in first-occurrence order. -/
def tokSetAux (seen : List (List Char)) : List (List Char) → List (List Char)
  | [] => []
  | t :: ts => if t ∈ seen then tokSetAux seen ts else t :: tokSetAux (t :: seen) ts

def tokSet (s : String) : List (List Char) := tokSetAux [] (pySplitL s.data)

/-- Token-set intersection (as a list, both arguments duplicate-free). -/
def interToks (a b : List (List Char)) : List (List Char) :=
  a.filter (fun t => t ∈ b)

/-- Token-set union (as a list, both arguments duplicate-free). -/
def unionToks (a b : List (List Char)) : List (List Char) :=
  a ++ b.filter (fun t => ¬ t ∈ a)

/-- The row's entry as used by the fuzzy tier:
`row['english'].lower().strip()`. -/
def rowEntry (r : Row) : String := pyStripS (pyLowerS r.english)

/-- The Jaccard similarity `len(intersection) / len(union)` of the query
token set and the row's token set (0 on an empty union, which the loop
guards against anyway). -/
def rowSim (wp : List (List Char)) (r : Row) : ℚ :=
  ((interToks wp (tokSet (rowEntry r))).length : ℚ) /
    ((unionToks wp (tokSet (rowEntry r))).length : ℚ)

/-- The loop body of `WordMatcher._fuzzy_match`, carrying `best_match` and
`best_score`. -/
def fuzzyGo (wp : List (List Char)) (lang : String) :
    List Row → Option String → ℚ → Option String
  | [], best, _ => best
  | r :: rs, best, bestScore =>
    if rowEntry r = "" then fuzzyGo wp lang rs best bestScore
    else if unionToks wp (tokSet (rowEntry r)) = [] then
      fuzzyGo wp lang rs best bestScore
    else if bestScore < rowSim wp r ∧ (1 : ℚ)/2 ≤ rowSim wp r then
      match getBestTranslation [r] lang with
      | some t => fuzzyGo wp lang rs (some t) (rowSim wp r)
      | none => fuzzyGo wp lang rs best bestScore
    else fuzzyGo wp lang rs best bestScore

/-- `WordMatcher._fuzzy_match`. -/
def fuzzyMatch (word lang : String) (df : Table) : Option String :=
  fuzzyGo (tokSet word) lang df.rows none 0

/-! ## `WordMatcher.search_in_csv` -/

/-- `WordMatcher.search_in_csv`: guard on an empty frame or missing target
column, clean the query, then run the four tiers in order, returning the
first hit. -/
def searchInCsv (word lang : String) (df : Table) : Option String :=
  if df.rows.isEmpty || !(df.cols.contains lang) then none
  else
    match exactMatch (cleanWord word) lang df with
    | some t => some t
    | none =>
      match caseInsensitiveMatch (cleanWord word) lang df with
      | some t => some t
      | none =>
        match partMatch (cleanWord word) lang df with
        | some t => some t
        | none => fuzzyMatch (cleanWord word) lang df

/-! ## Configuration (`config.py`) -/

/-- `Config.GOOGLE_TRANSLATE_MAX_RETRIES`. -/
def MAX_RETRIES : Nat := 3

/-- `Config.MESSAGES["empty_word"]`. -/
def msgEmptyWord : String := "Please enter a valid English word"

/-- `Config.MESSAGES["network_error"]`. -/
def msgNetworkError : String := "Network timeout - please check your internet connection"

/-- `Config.MESSAGES["rate_limit"]`. -/
def msgRateLimit : String := "Rate limit exceeded - please try again later"

/-- `Config.MESSAGES["translation_failed"]`. -/
def msgTranslationFailed : String := "Translation failed after multiple attempts"

/-- `Config.SUPPORTED_LANGUAGES`. -/
def supportedLanguages : List (String × String) :=
  [("swahili", "Swahili"), ("haya", "Haya"), ("sukuma", "Sukuma")]

/-- `Config.SUPPORTED_LANGUAGES.get(code, ...)` as used by `main.py`
(the default branch is never taken for a validated request). -/
def languageName (lang : String) : String :=
  ((supportedLanguages.find? (fun p => p.1 == lang)).map (fun p => p.2)).getD ""

/-- `Config.FALLBACK_TRANSLATIONS`. -/
def fallbackTable : List (String × List (String × String)) :=
  [("swahili",
    [("hello", "hujambo"), ("goodbye", "kwaheri"), ("thank you", "asante"),
     ("please", "tafadhali"), ("yes", "ndiyo"), ("no", "hapana"),
     ("water", "maji"), ("food", "chakula"), ("house", "nyumba"),
     ("family", "familia"), ("friend", "rafiki"), ("love", "upendo"),
     ("peace", "amani"), ("school", "shule"), ("book", "kitabu"),
     ("teacher", "mwalimu"), ("student", "mwanafunzi"), ("mother", "mama"),
     ("father", "baba"), ("child", "mtoto"), ("good", "nzuri"),
     ("bad", "mbaya"), ("big", "kubwa"), ("small", "ndogo")]),
   ("haya",
    [("hello", "oriire ota"), ("water", "amizi"), ("food", "ebyakula"),
     ("house", "enju"), ("thank you", "waakera"), ("good", "kirungi"),
     ("man", "mushaija"), ("woman", "mukazi"), ("child", "mwana"),
     ("book", "ekitabu"), ("school", "umosomelo"), ("sleep", "okunyama"),
     ("eat", "okulya"), ("walk", "iruka"), ("morning", "bwakya"),
     ("one", "emo"), ("two", "ibili"), ("three", "ishatu"),
     ("four", "ina"), ("five", "itanu")]),
   ("sukuma",
    [("hello", "mwangaluka"), ("world", "welelo"), ("food", "shilewa"),
     ("water", "minze"), ("house", "numba"), ("school", "shule"),
     ("friend", "nsumba"), ("man", "ngosha"), ("woman", "nkima"),
     ("child", "mwana"), ("tomorrow", "ntondo"), ("home", "mukaya"),
     ("yes", "geko"), ("salt", "munhu"), ("shop", "iduka"),
     ("milk", "mabwhela"), ("talk", "goyomba"), ("one", "emo"),
     ("buy", "gula"), ("sell", "guzu")])]

/-- `Config.get_fallback_translation`: look up `word.lower().strip()` in
the per-language fallback dictionary. -/
def getFallbackTranslation (word lang : String) : Option String :=
  let wl := pyStripS (pyLowerS word)
  match fallbackTable.find? (fun p => p.1 == lang) with
  | some p => (p.2.find? (fun q => q.1 == wl)).map (fun q => q.2)
  | none => none

/-! ## `TranslationService.translate_to_swahili` -/

/-- The outcome of one attempt of `self.translator.translate(...)`:
either a result object whose `.text` is the given string (an empty string
models a falsy/missing `text`), or a raised exception with the given
message. -/
inductive RemoteOutcome where
  | ok (text : String)
  | err (msg : String)
deriving DecidableEq, Repr

/-- The in-memory `translation_cache`, most recent entry first. -/
abbrev Cache := List (String × String)

/-- `cache_key in self.translation_cache` / cache read. -/
def lookupCache (cache : Cache) (key : String) : Option String :=
  (cache.find? (fun p => p.1 == key)).map (fun p => p.2)

/-- The error message classified as transient-network:
`any(keyword in error_msg for keyword in ['timeout','handshake','ssl','connection'])`
on the lower-cased message. -/
def isTransientMsg (msg : String) : Bool :=
  ["timeout", "handshake", "ssl", "connection"].any
    (fun k => containsSub (pyLowerS msg) k)

/-- `'rate limit' in error_msg or '429' in error_msg` on the lower-cased
message. -/
def isRateLimitMsg (msg : String) : Bool :=
  containsSub (pyLowerS msg) "rate limit" || containsSub (pyLowerS msg) "429"

/-- The body of the `try`: a result object with a truthy `.text` succeeds,
anything else raises `Empty translation result`; a raised exception keeps
its message. -/
def attemptOutcome (remote : Nat → RemoteOutcome) (attempt : Nat) :
    Except String String :=
  match remote attempt with
  | .ok text => if text = "" then .error "Empty translation result" else .ok text
  | .err m => .error m

/-- The retry loop of `translate_to_swahili`.  `fuel` is the number of
loop iterations left (initially `MAX_RETRIES`), `attempt` the 0-based
index of the current attempt.  Returns the translation or error message,
the cache after the call, and the total number of remote attempts made.
An `ok` outcome with a non-empty text is trimmed, cached and returned; an
empty text raises `Empty translation result`, which is classified like
any other exception message.  Transient-network and rate-limit messages
retry unless this was the last attempt; anything else raises a
translation-service error at once. -/
def googleLoop (remote : Nat → RemoteOutcome) (key : String) :
    Nat → Nat → Cache → Except String String × Cache × Nat
  | 0, attempt, cache => (.error msgTranslationFailed, cache, attempt)
  | fuel + 1, attempt, cache =>
    match attemptOutcome remote attempt with
    | .ok text => (.ok (pyStripS text), (key, pyStripS text) :: cache, attempt + 1)
    | .error msg =>
      if isTransientMsg msg then
        if attempt = MAX_RETRIES - 1 then (.error msgNetworkError, cache, attempt + 1)
        else googleLoop remote key fuel (attempt + 1) cache
      else if isRateLimitMsg msg then
        if attempt = MAX_RETRIES - 1 then (.error msgRateLimit, cache, attempt + 1)
        else googleLoop remote key fuel (attempt + 1) cache
      else (.error ("Translation service error: " ++ msg), cache, attempt + 1)

/-- `TranslationService.translate_to_swahili`: build the cache key
`"en_to_sw_" + english_word.lower()`, return the cached value with zero
remote attempts on a hit, otherwise run the retry loop. -/
def translateToSwahili (remote : Nat → RemoteOutcome) (englishWord : String)
    (cache : Cache) : Except String String × Cache × Nat :=
  match lookupCache cache ("en_to_sw_" ++ pyLowerS englishWord) with
  | some v => (.ok v, cache, 0)
  | none => googleLoop remote ("en_to_sw_" ++ pyLowerS englishWord) MAX_RETRIES 0 cache

/-! ## `TextProcessor.validate_input` and response formatting -/

/-- A character of the class `[a-zA-Z\s'-]`. -/
def validChar (c : Char) : Bool :=
  c.isAlpha || isPySpace c || c = '\'' || c = '-'

/-- `re.match(r'^[a-zA-Z\s\'-]+$', s)` succeeds: non-empty and every
character in the class. -/
def regexFullMatch (s : String) : Bool :=
  !(s == "") && s.data.all validChar

/-- `TextProcessor.validate_input`. -/
def validateInput (text : String) : Bool × String :=
  if text = "" ∨ pyStripS text = "" then (false, msgEmptyWord)
  else if 100 < (pyStripS text).length then
    (false, "Word is too long (max 100 characters)")
  else if !(regexFullMatch (pyStripS text)) then
    (false, "Word contains invalid characters")
  else (true, "")

/-- `TextProcessor.format_translation_response`. -/
structure FormattedResponse where
  english : String
  translation : String
  target_language : String
  method : String
  success : Bool
  language_name : String
deriving DecidableEq, Repr

def formatTranslationResponse (english translation targetLanguage method : String) :
    FormattedResponse :=
  { english := pyStripS english
    translation := if translation = "" then "" else pyStripS translation
    target_language := targetLanguage
    method := method
    success := !(translation == "") && !(pyStripS translation == "")
    language_name := languageName targetLanguage }

/-! ## The resolver (`translate_word` in `main.py`) -/

/-- The fields of `TranslationResponse` relevant to resolution. -/
structure ResolutionResult where
  english : String
  translation : String
  target_language : String
  language_name : String
  method : String
  success : Bool
  error : Option String
deriving DecidableEq, Repr

/-- `translate_word` (`main.py`), after HTTP plumbing: validate the raw
word (an `Except.error` models the 400 response), then cascade through
the CSV lookup, the fallback dictionary, the remote client (for
`swahili` only) and the `not_found` result.  The extra `Nat` is the
number of remote attempts performed. -/
def translateWord (df : Table) (remote : Nat → RemoteOutcome) (cache : Cache)
    (englishWord targetLanguage : String) :
    Except String (ResolutionResult × Cache × Nat) :=
  match validateInput englishWord with
  | (false, msg) => .error msg
  | (true, _) =>
    let word := pyStripS englishWord
    let lang := pyLowerS targetLanguage
    match searchInCsv word lang df with
    | some t =>
      .ok ({ english := word, translation := t, target_language := lang,
             language_name := languageName lang, method := "csv_lookup",
             success := true, error := none }, cache, 0)
    | none =>
      match getFallbackTranslation word lang with
      | some t =>
        .ok ({ english := word, translation := t, target_language := lang,
               language_name := languageName lang, method := "fallback_dictionary",
               success := true, error := none }, cache, 0)
      | none =>
        if lang = "swahili" then
          match translateToSwahili remote word cache with
          | (Except.ok t, c, n) =>
            .ok ({ english := word, translation := t, target_language := lang,
                   language_name := languageName lang, method := "google_translate",
                   success := true, error := none }, c, n)
          | (Except.error e, c, n) =>
            .ok ({ english := word, translation := "", target_language := lang,
                   language_name := languageName lang, method := "failed",
                   success := false, error := some e }, c, n)
        else
          .ok ({ english := word, translation := "", target_language := lang,
                 language_name := languageName lang, method := "not_found",
                 success := false,
                 error := some ("No " ++ lang ++ " translation found for '" ++ word ++ "'") },
               cache, 0)

/-! ## List helper lemmas -/

theorem dropWhile_head_false {α : Type} (p : α → Bool) :
    ∀ (l : List α) (a : α) (t : List α), l.dropWhile p = a :: t → p a = false := by
  intro l
  induction l with
  | nil => intro a t h; simp [List.dropWhile] at h
  | cons b l ih =>
    intro a t h
    rw [List.dropWhile_cons] at h
    by_cases hb : p b
    · rw [if_pos hb] at h; exact ih a t h
    · rw [if_neg hb] at h
      cases h
      simpa using hb

theorem dropWhile_idem {α : Type} (p : α → Bool) (l : List α) :
    (l.dropWhile p).dropWhile p = l.dropWhile p := by
  induction l with
  | nil => rfl
  | cons a l ih =>
    rw [List.dropWhile_cons]
    by_cases ha : p a
    · rw [if_pos ha]; exact ih
    · rw [if_neg ha, List.dropWhile_cons, if_neg ha]

theorem dropWhile_append_singleton {α : Type} (p : α → Bool) (l : List α) (a : α)
    (ha : p a = false) : ∃ u, (l ++ [a]).dropWhile p = u ++ [a] := by
  induction l with
  | nil => exact ⟨[], by simp [List.dropWhile_cons, ha]⟩
  | cons b l ih =>
    rw [List.cons_append, List.dropWhile_cons]
    by_cases hb : p b
    · rw [if_pos hb]; exact ih
    · rw [if_neg hb]; exact ⟨b :: l, rfl⟩

theorem strip_noLeadWs {α : Type} (p : α → Bool) (l : List α) :
    ((((l.dropWhile p).reverse.dropWhile p).reverse).dropWhile p) =
      ((l.dropWhile p).reverse.dropWhile p).reverse := by
  cases hm : l.dropWhile p with
  | nil => simp
  | cons a t =>
    have ha : p a = false := dropWhile_head_false p l a t hm
    rw [List.reverse_cons]
    obtain ⟨u, hu⟩ := dropWhile_append_singleton p t.reverse a ha
    rw [hu, List.reverse_append]
    simp [List.dropWhile_cons, ha]

theorem pyStripL_revDropWhile (l : List Char) :
    (pyStripL l).reverse.dropWhile isPySpace = (pyStripL l).reverse := by
  unfold pyStripL
  rw [List.reverse_reverse]
  exact dropWhile_idem _ _

theorem pyStripL_idem (l : List Char) : pyStripL (pyStripL l) = pyStripL l := by
  have h1 : (pyStripL l).dropWhile isPySpace = pyStripL l := strip_noLeadWs isPySpace l
  have h2 := pyStripL_revDropWhile l
  show (((pyStripL l).dropWhile isPySpace).reverse.dropWhile isPySpace).reverse = pyStripL l
  rw [h1, h2, List.reverse_reverse]

theorem pyStripS_idem (s : String) : pyStripS (pyStripS s) = pyStripS s :=
  congrArg String.mk (pyStripL_idem s.data)

/-! ## `_get_best_translation` lemmas -/

theorem nonBlankCell_iff (r : Row) (lang : String) :
    nonBlankCell r lang = true ↔ ∃ v, r.cell lang = some v ∧ pyStripS v ≠ "" := by
  unfold nonBlankCell
  cases h : r.cell lang with
  | none => simp
  | some v => simp

theorem getBestTranslation_eq_some (ms : List Row) (lang t : String)
    (h : getBestTranslation ms lang = some t) : t ≠ "" ∧ pyStripS t = t := by
  unfold getBestTranslation at h
  cases hf : ms.filter (fun r => nonBlankCell r lang) with
  | nil => rw [hf] at h; cases h
  | cons r rest =>
    rw [hf] at h
    simp only at h
    by_cases ht : pyStripS ((r.cell lang).getD "") = ""
    · rw [if_pos ht] at h; cases h
    · rw [if_neg ht] at h
      cases h
      exact ⟨ht, pyStripS_idem _⟩

theorem getBestTranslation_first (l₁ : List Row) (r : Row) (l₂ : List Row)
    (lang : String) (h₁ : ∀ x ∈ l₁, nonBlankCell x lang = false)
    (hr : nonBlankCell r lang = true) :
    getBestTranslation (l₁ ++ r :: l₂) lang =
      some (pyStripS ((r.cell lang).getD "")) := by
  unfold getBestTranslation
  rw [List.filter_append]
  have hnil : l₁.filter (fun x => nonBlankCell x lang) = [] := by
    rw [List.filter_eq_nil_iff]
    intro x hx
    simp [h₁ x hx]
  have hfc : List.filter (fun x => nonBlankCell x lang) (r :: l₂) =
      r :: List.filter (fun x => nonBlankCell x lang) l₂ :=
    List.filter_cons_of_pos hr
  rw [hnil, List.nil_append, hfc]
  obtain ⟨v, hv, hne⟩ := (nonBlankCell_iff r lang).mp hr
  simp [hv, hne]

/-! ## Claim theorems: C6, C10, C5, C1 -/

/-- Claim C6, counterexample: `_clean_word` is not idempotent.  On the
input `"a !"` the whitespace collapse happens before the punctuation
filter, so the filtered output keeps a trailing space: the first pass
gives `"a "`, the second `"a"`. -/
theorem clean_word_not_idempotent :
    cleanWord "a !" = "a " ∧ cleanWord (cleanWord "a !") = "a" ∧
      cleanWord (cleanWord "a !") ≠ cleanWord "a !" := by
  refine ⟨rfl, rfl, ?_⟩
  decide

/-- Claim C10: `validate_input` accepts exactly the inputs whose trimmed
form is non-empty, at most 100 characters long, and made only of ASCII
letters, whitespace, hyphens and apostrophes (so in particular any
digit is rejected). -/
theorem validate_input_iff (text : String) :
    (validateInput text).1 = true ↔
      (pyStripS text ≠ "" ∧ (pyStripS text).length ≤ 100 ∧
        (pyStripS text).data.all validChar = true) := by
  unfold validateInput
  split_ifs with h1 h2 h3
  · simp only [Bool.false_eq_true, false_iff]
    rintro ⟨hne, -, -⟩
    rcases h1 with h1 | h1
    · exact hne (by rw [h1]; rfl)
    · exact hne h1
  · simp only [Bool.false_eq_true, false_iff]
    rintro ⟨-, hlen, -⟩
    exact absurd h2 (not_lt.mpr hlen)
  · simp only [Bool.false_eq_true, false_iff]
    rintro ⟨hne, -, hall⟩
    have hreg : regexFullMatch (pyStripS text) = true := by
      unfold regexFullMatch
      simp [hne, hall]
    rw [Bool.not_eq_true'] at h3
    rw [hreg] at h3
    cases h3
  · simp only [true_iff]
    push_neg at h1
    rw [Bool.not_eq_true, Bool.not_eq_false'] at h3
    unfold regexFullMatch at h3
    rw [Bool.and_eq_true] at h3
    exact ⟨h1.2, not_lt.mp h2, h3.2⟩

/-- Claim C5, failing input: both filters of `_partial_match` test only
whether the query occurs in the row's source word, although the source
comment announces both directions.  For the query `"books"` against the
single row `("book", "kitabu")` the entry `"book"` IS contained in the
query (second conjunct), yet the partial tier returns nothing. -/
theorem partial_match_one_direction :
    partMatch "books" "swahili"
        ⟨["english", "swahili"], [⟨"book", [("swahili", some "kitabu")]⟩]⟩ = none ∧
      containsSub "books" "book" = true ∧
      containsSub "book" "books" = false :=
  ⟨rfl, rfl, rfl⟩

/-- Claim C1, counterexample: the exact tier compares the row's source
word only lower-cased and trimmed, never punctuation-filtered.  The row
`"cat!"` equals the query `"cat"` after full normalization and has a
non-blank translation, yet `_exact_match` misses it and the result is
produced by the partial tier instead. -/
theorem exact_tier_counterexample :
    cleanWord "cat!" = cleanWord "cat" ∧
      nonBlankCell ⟨"cat!", [("swahili", some "paka")]⟩ "swahili" = true ∧
      exactMatch (cleanWord "cat") "swahili"
        ⟨["english", "swahili"], [⟨"cat!", [("swahili", some "paka")]⟩]⟩ = none ∧
      searchInCsv "cat" "swahili"
        ⟨["english", "swahili"], [⟨"cat!", [("swahili", some "paka")]⟩]⟩ = some "paka" ∧
      partMatch (cleanWord "cat") "swahili"
        ⟨["english", "swahili"], [⟨"cat!", [("swahili", some "paka")]⟩]⟩ = some "paka" :=
  ⟨rfl, rfl, rfl, rfl, rfl⟩

/-- Claim C1 (amended): if some row's source word, lower-cased and
trimmed (the form `_exact_match` actually compares), equals the
normalized query, and the first such row with a non-blank translation
for the target language is `r`, then `search_in_csv` returns `r`'s
trimmed translation via the exact tier. -/
theorem exact_tier_first_row (df : Table) (q lang : String) (l₁ : List Row)
    (r : Row) (l₂ : List Row)
    (hcols : df.cols.contains lang = true)
    (hsplit : df.rows = l₁ ++ r :: l₂)
    (hkey : pyStripS (pyLowerS r.english) = cleanWord q)
    (hnb : nonBlankCell r lang = true)
    (hfirst : ∀ x ∈ l₁, pyStripS (pyLowerS x.english) = cleanWord q →
      nonBlankCell x lang = false) :
    exactMatch (cleanWord q) lang df = some (pyStripS ((r.cell lang).getD "")) ∧
      searchInCsv q lang df = some (pyStripS ((r.cell lang).getD "")) := by
  have hex : exactMatch (cleanWord q) lang df =
      some (pyStripS ((r.cell lang).getD "")) := by
    unfold exactMatch
    rw [hsplit, List.filter_append,
      List.filter_cons_of_pos (by simpa [beq_iff_eq] using hkey)]
    exact getBestTranslation_first _ r _ lang
      (by
        intro x hx
        rw [List.mem_filter] at hx
        exact hfirst x hx.1 (by simpa [beq_iff_eq] using hx.2))
      hnb
  refine ⟨hex, ?_⟩
  unfold searchInCsv
  have hguard : (df.rows.isEmpty || !(df.cols.contains lang)) = false := by
    rw [hsplit, hcols]
    simp
  rw [hguard]
  simp only [Bool.false_eq_true, if_false, hex]

/-- Witness for the amended C1 at a concrete table and query. -/
theorem exact_tier_first_row_witness :
    exactMatch (cleanWord "cat") "swahili"
        ⟨["english", "swahili"], [⟨"cat", [("swahili", some "paka")]⟩]⟩ = some "paka" ∧
      searchInCsv "cat" "swahili"
        ⟨["english", "swahili"], [⟨"cat", [("swahili", some "paka")]⟩]⟩ = some "paka" :=
  exact_tier_first_row ⟨["english", "swahili"], [⟨"cat", [("swahili", some "paka")]⟩]⟩
    "cat" "swahili" [] ⟨"cat", [("swahili", some "paka")]⟩ []
    rfl rfl rfl rfl (by intro x hx; cases hx)

/-! ## Claim theorems: C4, C8, C3 -/

theorem googleLoop_transient (remote : Nat → RemoteOutcome) (key : String)
    (htrans : ∀ n, ∃ m, remote n = .err m ∧ isTransientMsg m = true) :
    ∀ fuel attempt cache, fuel + attempt = MAX_RETRIES → fuel ≠ 0 →
      googleLoop remote key fuel attempt cache =
        (.error msgNetworkError, cache, MAX_RETRIES) := by
  intro fuel
  induction fuel with
  | zero => intro attempt cache _ h0; exact absurd rfl h0
  | succ fuel ih =>
    intro attempt cache hsum _
    obtain ⟨m, hm, ht⟩ := htrans attempt
    have hout : attemptOutcome remote attempt = .error m := by
      unfold attemptOutcome
      rw [hm]
    have hM : MAX_RETRIES = 3 := rfl
    by_cases ha : attempt = MAX_RETRIES - 1
    · have h1 : attempt + 1 = MAX_RETRIES := by
        rw [hM] at ha ⊢; omega
      simp only [googleLoop, hout, ht, if_true, if_pos ha, h1]
    · have hf : fuel ≠ 0 := by
        rw [hM] at hsum ha; omega
      have hsum' : fuel + (attempt + 1) = MAX_RETRIES := by
        rw [hM] at hsum ⊢; omega
      simp only [googleLoop, hout, ht, if_true, if_neg ha]
      exact ih (attempt + 1) cache hsum' hf

/-- Claim C4: when the remote call raises a transient-network error
(message containing timeout/handshake/ssl/connection) on every attempt
and the cache misses, `translate_to_swahili` makes exactly
`MAX_RETRIES = 3` attempts and then fails with the configured
network-error message, leaving the cache unchanged. -/
theorem transient_retry_exhaustion (remote : Nat → RemoteOutcome) (word : String)
    (cache : Cache)
    (hmiss : lookupCache cache ("en_to_sw_" ++ pyLowerS word) = none)
    (htrans : ∀ n, ∃ m, remote n = .err m ∧ isTransientMsg m = true) :
    translateToSwahili remote word cache =
      (.error msgNetworkError, cache, MAX_RETRIES) := by
  unfold translateToSwahili
  rw [hmiss]
  exact googleLoop_transient remote _ htrans MAX_RETRIES 0 cache rfl (by decide)

/-- Witness for C4: a remote that always times out leads to 3 attempts
and the network-error message. -/
theorem transient_retry_exhaustion_witness :
    translateToSwahili (fun _ => RemoteOutcome.err "timeout") "hello" [] =
      (.error msgNetworkError, [], MAX_RETRIES) :=
  transient_retry_exhaustion (fun _ => RemoteOutcome.err "timeout") "hello" [] rfl
    (fun _ => ⟨"timeout", rfl, rfl⟩)

/-- Claim C8: an attempt that completes with an empty text raises
`Empty translation result`, which matches neither the transient-network
nor the rate-limit keywords, so the call fails immediately on attempt 1
with a translation-service error and the cache is unchanged. -/
theorem empty_result_service_error (remote : Nat → RemoteOutcome) (word : String)
    (cache : Cache)
    (hmiss : lookupCache cache ("en_to_sw_" ++ pyLowerS word) = none)
    (hempty : remote 0 = .ok "") :
    translateToSwahili remote word cache =
      (.error "Translation service error: Empty translation result", cache, 1) := by
  unfold translateToSwahili
  rw [hmiss]
  have hout : attemptOutcome remote 0 = .error "Empty translation result" := by
    unfold attemptOutcome
    rw [hempty]
    rfl
  have ht : isTransientMsg "Empty translation result" = false := by decide
  have hr : isRateLimitMsg "Empty translation result" = false := by decide
  rw [show MAX_RETRIES = 2 + 1 from rfl]
  simp only [googleLoop, hout, ht, hr, Bool.false_eq_true, if_false]
  rfl

/-- Witness for C8 at a concrete remote and empty cache. -/
theorem empty_result_service_error_witness :
    translateToSwahili (fun _ => RemoteOutcome.ok "") "hello" [] =
      (.error "Translation service error: Empty translation result", [], 1) :=
  empty_result_service_error (fun _ => RemoteOutcome.ok "") "hello" [] rfl rfl

/-- Claim C3, counterexample: the cache key uses only `word.lower()`,
not the full normalization.  The words `"hello "` and `"hello"` have the
same normalized form, yet after a successful first call for `"hello "`
the second call for `"hello"` still performs one remote attempt instead
of hitting the cache with zero attempts. -/
theorem cache_key_not_normalized :
    cleanWord "hello " = cleanWord "hello" ∧
      (translateToSwahili (fun _ => RemoteOutcome.ok "jambo") "hello " []).2.2 = 1 ∧
      (translateToSwahili (fun _ => RemoteOutcome.ok "jambo") "hello"
        (translateToSwahili (fun _ => RemoteOutcome.ok "jambo") "hello " []).2.1).2.2 = 1 :=
  ⟨rfl, rfl, rfl⟩

theorem googleLoop_cache_of_ok (remote : Nat → RemoteOutcome) (key : String) :
    ∀ fuel attempt cache t c n,
      googleLoop remote key fuel attempt cache = (.ok t, c, n) →
      lookupCache c key = some t := by
  intro fuel
  induction fuel with
  | zero =>
    intro attempt cache t c n h
    exact absurd h (by simp [googleLoop])
  | succ fuel ih =>
    intro attempt cache t c n h
    simp only [googleLoop] at h
    split at h
    · simp only [Prod.mk.injEq, Except.ok.injEq] at h
      obtain ⟨h1, h2, -⟩ := h
      rw [← h2, ← h1]
      simp [lookupCache]
    · split at h
      · split at h
        · exact absurd h (by simp)
        · exact ih _ _ _ _ _ h
      · split at h
        · split at h
          · exact absurd h (by simp)
          · exact ih _ _ _ _ _ h
        · exact absurd h (by simp)

/-- Claim C3 (amended): the cache key is built from the lower-cased word
and the fixed en→sw pair, so after any call that returns a translation,
a second call whose word lower-cases to the same string returns that
cached value immediately, with zero remote attempts and an unchanged
cache. -/
theorem cache_hit_zero_attempts (remote remote' : Nat → RemoteOutcome)
    (w w' : String) (cache : Cache) (t : String) (c1 : Cache) (n : Nat)
    (hw : pyLowerS w' = pyLowerS w)
    (hfirst : translateToSwahili remote w cache = (.ok t, c1, n)) :
    translateToSwahili remote' w' c1 = (.ok t, c1, 0) := by
  have hkey : lookupCache c1 ("en_to_sw_" ++ pyLowerS w) = some t := by
    unfold translateToSwahili at hfirst
    cases hlc : lookupCache cache ("en_to_sw_" ++ pyLowerS w) with
    | some v =>
      rw [hlc] at hfirst
      simp only [Prod.mk.injEq, Except.ok.injEq] at hfirst
      obtain ⟨h1, h2, -⟩ := hfirst
      rw [← h2, ← h1]
      exact hlc
    | none =>
      rw [hlc] at hfirst
      exact googleLoop_cache_of_ok remote _ _ _ _ _ _ _ hfirst
  unfold translateToSwahili
  rw [hw, hkey]

/-- Witness for the amended C3: with the key already cached, a second
call returns the cached value with zero attempts, whatever the remote
would do. -/
theorem cache_hit_zero_attempts_witness :
    translateToSwahili (fun _ => RemoteOutcome.ok "wrong") "hello"
        [("en_to_sw_hello", "jambo")] =
      (.ok "jambo", [("en_to_sw_hello", "jambo")], 0) :=
  cache_hit_zero_attempts (fun _ => RemoteOutcome.ok "jambo")
    (fun _ => RemoteOutcome.ok "wrong") "hello" "hello" [] "jambo"
    [("en_to_sw_hello", "jambo")] 1 rfl rfl

/-! ## Claim theorems: C2 (fuzzy tier characterization) -/

/-- A row is eligible for the fuzzy tier: non-empty entry, non-empty
token-set union, Jaccard similarity at least 0.5, and a non-blank
translation for the target language. -/
def fuzzyElig (wp : List (List Char)) (lang : String) (r : Row) : Prop :=
  rowEntry r ≠ "" ∧ unionToks wp (tokSet (rowEntry r)) ≠ [] ∧
    (1 : ℚ)/2 ≤ rowSim wp r ∧ (getBestTranslation [r] lang).isSome = true

theorem fuzzyGo_char (wp : List (List Char)) (lang : String) :
    ∀ (rows : List Row) (best : Option String) (bs : ℚ),
      (fuzzyGo wp lang rows best bs = best ∧
        ∀ r ∈ rows, fuzzyElig wp lang r → rowSim wp r ≤ bs) ∨
      (∃ l₁ r l₂, rows = l₁ ++ r :: l₂ ∧ fuzzyElig wp lang r ∧ bs < rowSim wp r ∧
        fuzzyGo wp lang rows best bs = getBestTranslation [r] lang ∧
        (∀ a ∈ l₁, fuzzyElig wp lang a → rowSim wp a < rowSim wp r) ∧
        (∀ a ∈ l₂, fuzzyElig wp lang a → rowSim wp a ≤ rowSim wp r)) := by
  intro rows
  induction rows with
  | nil =>
    intro best bs
    left
    exact ⟨rfl, by intro r hr; cases hr⟩
  | cons r rs ih =>
    intro best bs
    by_cases hE : rowEntry r = ""
    · have hstep : fuzzyGo wp lang (r :: rs) best bs = fuzzyGo wp lang rs best bs := by
        simp only [fuzzyGo, if_pos hE]
      have hnr : ¬ fuzzyElig wp lang r := fun hel => hel.1 hE
      rcases ih best bs with ⟨he, hall⟩ | ⟨l₁, x, l₂, heq, helig, hgt, hres, h1, h2⟩
      · left
        refine ⟨hstep.trans he, ?_⟩
        intro a ha hela
        rcases List.mem_cons.mp ha with rfl | ha'
        · exact absurd hela hnr
        · exact hall a ha' hela
      · right
        refine ⟨r :: l₁, x, l₂, by rw [heq]; rfl, helig, hgt, hstep.trans hres, ?_, h2⟩
        intro a ha hela
        rcases List.mem_cons.mp ha with rfl | ha'
        · exact absurd hela hnr
        · exact h1 a ha' hela
    · by_cases hU : unionToks wp (tokSet (rowEntry r)) = []
      · have hstep : fuzzyGo wp lang (r :: rs) best bs = fuzzyGo wp lang rs best bs := by
          simp only [fuzzyGo, if_neg hE, if_pos hU]
        have hnr : ¬ fuzzyElig wp lang r := fun hel => hel.2.1 hU
        rcases ih best bs with ⟨he, hall⟩ | ⟨l₁, x, l₂, heq, helig, hgt, hres, h1, h2⟩
        · left
          refine ⟨hstep.trans he, ?_⟩
          intro a ha hela
          rcases List.mem_cons.mp ha with rfl | ha'
          · exact absurd hela hnr
          · exact hall a ha' hela
        · right
          refine ⟨r :: l₁, x, l₂, by rw [heq]; rfl, helig, hgt, hstep.trans hres, ?_, h2⟩
          intro a ha hela
          rcases List.mem_cons.mp ha with rfl | ha'
          · exact absurd hela hnr
          · exact h1 a ha' hela
      · by_cases hC : bs < rowSim wp r ∧ (1 : ℚ)/2 ≤ rowSim wp r
        · cases hG : getBestTranslation [r] lang with
          | some t =>
            have hstep : fuzzyGo wp lang (r :: rs) best bs =
                fuzzyGo wp lang rs (some t) (rowSim wp r) := by
              simp only [fuzzyGo, if_neg hE, if_neg hU, if_pos hC, hG]
            have helr : fuzzyElig wp lang r := ⟨hE, hU, hC.2, by rw [hG]; rfl⟩
            rcases ih (some t) (rowSim wp r) with ⟨he, hall⟩ |
              ⟨l₁, x, l₂, heq, helig, hgt, hres, h1, h2⟩
            · right
              refine ⟨[], r, rs, rfl, helr, hC.1, ?_, ?_, hall⟩
              · rw [hstep, he, hG]
              · intro a ha; cases ha
            · right
              refine ⟨r :: l₁, x, l₂, by rw [heq]; rfl, helig, lt_trans hC.1 hgt,
                hstep.trans hres, ?_, h2⟩
              intro a ha hela
              rcases List.mem_cons.mp ha with rfl | ha'
              · exact hgt
              · exact h1 a ha' hela
          | none =>
            have hstep : fuzzyGo wp lang (r :: rs) best bs =
                fuzzyGo wp lang rs best bs := by
              simp only [fuzzyGo, if_neg hE, if_neg hU, if_pos hC, hG]
            have hnr : ¬ fuzzyElig wp lang r := by
              intro hel
              have := hel.2.2.2
              rw [hG] at this
              cases this
            rcases ih best bs with ⟨he, hall⟩ | ⟨l₁, x, l₂, heq, helig, hgt, hres, h1, h2⟩
            · left
              refine ⟨hstep.trans he, ?_⟩
              intro a ha hela
              rcases List.mem_cons.mp ha with rfl | ha'
              · exact absurd hela hnr
              · exact hall a ha' hela
            · right
              refine ⟨r :: l₁, x, l₂, by rw [heq]; rfl, helig, hgt, hstep.trans hres, ?_, h2⟩
              intro a ha hela
              rcases List.mem_cons.mp ha with rfl | ha'
              · exact absurd hela hnr
              · exact h1 a ha' hela
        · have hstep : fuzzyGo wp lang (r :: rs) best bs =
              fuzzyGo wp lang rs best bs := by
            simp only [fuzzyGo, if_neg hE, if_neg hU, if_neg hC]
          have hle : fuzzyElig wp lang r → rowSim wp r ≤ bs := by
            intro hel
            rcases not_and_or.mp hC with h | h
            · exact not_lt.mp h
            · exact absurd hel.2.2.1 h
          rcases ih best bs with ⟨he, hall⟩ | ⟨l₁, x, l₂, heq, helig, hgt, hres, h1, h2⟩
          · left
            refine ⟨hstep.trans he, ?_⟩
            intro a ha hela
            rcases List.mem_cons.mp ha with rfl | ha'
            · exact hle hela
            · exact hall a ha' hela
          · right
            refine ⟨r :: l₁, x, l₂, by rw [heq]; rfl, helig, hgt, hstep.trans hres, ?_, h2⟩
            intro a ha hela
            rcases List.mem_cons.mp ha with rfl | ha'
            · exact lt_of_le_of_lt (hle hela) hgt
            · exact h1 a ha' hela

/-- Claim C2: the fuzzy tier returns nothing exactly when no row is
eligible (Jaccard similarity at least 0.5 with a non-blank translation);
otherwise it returns the (trimmed) translation of the first row that
attains the highest similarity among eligible rows: every eligible row
scores at most that row's similarity, and every eligible row strictly
before it scores strictly less (so on equal scores the earliest row in
load order wins). -/
theorem fuzzy_tier_characterization (word lang : String) (df : Table) :
    (fuzzyMatch word lang df = none ∧
      ∀ r ∈ df.rows, ¬ fuzzyElig (tokSet word) lang r) ∨
    (∃ l₁ r l₂, df.rows = l₁ ++ r :: l₂ ∧ fuzzyElig (tokSet word) lang r ∧
      fuzzyMatch word lang df = getBestTranslation [r] lang ∧
      (∀ a ∈ l₁, fuzzyElig (tokSet word) lang a →
        rowSim (tokSet word) a < rowSim (tokSet word) r) ∧
      (∀ a ∈ l₂, fuzzyElig (tokSet word) lang a →
        rowSim (tokSet word) a ≤ rowSim (tokSet word) r)) := by
  rcases fuzzyGo_char (tokSet word) lang df.rows none 0 with ⟨he, hall⟩ |
    ⟨l₁, r, l₂, heq, helig, _, hres, h1, h2⟩
  · left
    refine ⟨he, ?_⟩
    intro r hr hel
    have hle := hall r hr hel
    have h05 := hel.2.2.1
    have : (1 : ℚ)/2 ≤ 0 := le_trans h05 hle
    norm_num at this
  · right
    exact ⟨l₁, r, l₂, heq, helig, hres, h1, h2⟩

/-! ## Claim theorems: C9, C7 -/

theorem partMatch_nonblank (word lang : String) (df : Table) (t : String)
    (h : partMatch word lang df = some t) : t ≠ "" ∧ pyStripS t = t := by
  simp only [partMatch] at h
  split at h
  · cases h
  · exact getBestTranslation_eq_some _ _ _ h

theorem fuzzyMatch_nonblank (word lang : String) (df : Table) (t : String)
    (h : fuzzyMatch word lang df = some t) : t ≠ "" ∧ pyStripS t = t := by
  unfold fuzzyMatch at h
  rcases fuzzyGo_char (tokSet word) lang df.rows none 0 with ⟨he, -⟩ |
    ⟨l₁, r, l₂, -, -, -, hres, -, -⟩
  · rw [he] at h
    cases h
  · rw [hres] at h
    exact getBestTranslation_eq_some _ _ _ h

/-- Claim C9: any translation returned by any tier of `search_in_csv` is
non-blank and already trimmed: `_get_best_translation` filters out
missing and blank cells and trims the selected cell, and all four tiers
return through it. -/
theorem search_result_nonblank (word lang : String) (df : Table) (t : String)
    (h : searchInCsv word lang df = some t) : t ≠ "" ∧ pyStripS t = t := by
  unfold searchInCsv at h
  split at h
  · cases h
  · split at h
    next t' hex =>
      cases h
      exact getBestTranslation_eq_some _ _ _ hex
    next hex =>
      split at h
      next t' hcase =>
        cases h
        exact getBestTranslation_eq_some _ _ _ hcase
      next hcase =>
        split at h
        next t' hpart =>
          cases h
          exact partMatch_nonblank _ _ _ _ hpart
        next hpart =>
          exact fuzzyMatch_nonblank _ _ _ _ h

/-- Witness for C9 at a concrete table on which the cascade succeeds. -/
theorem search_result_nonblank_witness :
    ("paka" : String) ≠ "" ∧ pyStripS "paka" = "paka" :=
  search_result_nonblank "cat" "swahili"
    ⟨["english", "swahili"], [⟨"cat", [("swahili", some "paka")]⟩]⟩ "paka" rfl

/-- Claim C7: for a supported target language other than the
remote-eligible `swahili`, a word that misses both the lookup table and
the fallback dictionary resolves to a normal result with method
`not_found`, success `false` and a descriptive error message, with zero
remote attempts and an unchanged cache. -/
theorem non_remote_not_found (df : Table) (remote : Nat → RemoteOutcome)
    (cache : Cache) (eng lang : String)
    (hlang : lang = "haya" ∨ lang = "sukuma")
    (hval : validateInput eng = (true, ""))
    (hsearch : searchInCsv (pyStripS eng) lang df = none)
    (hfall : getFallbackTranslation (pyStripS eng) lang = none) :
    translateWord df remote cache eng lang =
      .ok ({ english := pyStripS eng, translation := "", target_language := lang,
             language_name := languageName lang, method := "not_found",
             success := false,
             error := some ("No " ++ lang ++ " translation found for '" ++
               pyStripS eng ++ "'") },
           cache, 0) := by
  have hlow : pyLowerS lang = lang := by
    rcases hlang with rfl | rfl <;> rfl
  have hsw : ¬ (lang = "swahili") := by
    rcases hlang with rfl | rfl <;> decide
  simp only [translateWord, hval, hlow, hsearch, hfall]
  rw [if_neg hsw]

/-- Witness for C7: an empty table, the word `"zzz"` and the target
language `haya`. -/
theorem non_remote_not_found_witness :
    translateWord ⟨["english", "haya"], []⟩ (fun _ => RemoteOutcome.ok "x") []
        "zzz" "haya" =
      .ok ({ english := "zzz", translation := "", target_language := "haya",
             language_name := "Haya", method := "not_found", success := false,
             error := some "No haya translation found for 'zzz'" }, [], 0) :=
  non_remote_not_found ⟨["english", "haya"], []⟩ (fun _ => RemoteOutcome.ok "x") []
    "zzz" "haya" (Or.inl rfl) rfl rfl rfl

end LocalTranslator
